import Mathlib

/-!
# Verification of the SNODAS netCDF builder (`run_snodas_build.py`)

A shallow embedding of the SNODAS build pipeline: the per-cell payload
conversion, variable identification from member names, grid geometry
detection, the container-processing loop of `get_snodas_grid`, the spatial
subsetting of `subset_to_colorado`, the per-date accumulation and
completeness filter of `build_year_dataset`, and the year loop of `main`.

Numeric modelling: big-endian signed 16-bit payload values become `Int`
(via an explicit `% 2 ^ 16` two's-complement decode of byte pairs), and
the float32 arithmetic of the converted grids is modelled over `ℚ`.  For
the integer raw values in the int16 range the three elementwise steps of
the decoder (divide by 1000, snap values below 0.01 to zero, map the
nodata sentinel to NaN) make exactly the same branch decisions over `ℚ`
as over float32, so the `ℚ` model is branch-faithful.
-/

namespace Snodas

/-! ## Payload bytes: big-endian signed 16-bit decoding (`struct.unpack ">{n}h"`) -/

/-- Two's-complement read of a 16-bit value: the low 16 bits, interpreted
as a signed integer. -/
def toSigned16 (n : ℕ) : Int :=
  if n % 2 ^ 16 < 2 ^ 15 then ((n % 2 ^ 16 : ℕ) : Int)
  else ((n % 2 ^ 16 : ℕ) : Int) - 2 ^ 16

/-- Decode a byte sequence as consecutive big-endian signed 16-bit
integers (a trailing lone byte is ignored; the caller checks the exact
length, as `struct.unpack` does). -/
def unpackBE16 : List ℕ → List Int
  | hi :: lo :: rest => toSigned16 (hi * 256 + lo) :: unpackBE16 rest
  | _ => []

/-- Encode an integer as two big-endian bytes of its low 16 bits
(the test-side encoder for the round-trip property). -/
def encodeBE16 (r : Int) : List ℕ :=
  [(r % 2 ^ 16).toNat / 256, (r % 2 ^ 16).toNat % 256]

/-- `struct.unpack(f">{n}h", data)` demands exactly `2 * n` bytes;
anything else raises, which the decoder's outer handler turns into the
failure result. -/
def unpackExact (n : ℕ) (data : List ℕ) : Option (List Int) :=
  if data.length = 2 * n then some (unpackBE16 data) else none

/-! ## Per-cell conversion (`run_snodas_build.py` lines 185-190) -/

/-- The nodata sentinel raw value. -/
def SNODAS_NODATA : Int := -9999

/-- A decoded cell: a finite physical value or NaN. -/
inductive SnoVal where
  | nan : SnoVal
  | val : ℚ → SnoVal
deriving DecidableEq, Repr

/-- The elementwise conversion applied to every unpacked raw value, in
source order: divide by 1000, snap values `< 0.01` to `0.0`, then map
values equal to `SNODAS_NODATA / 1000` to NaN. -/
def decodeCell (r : Int) : SnoVal :=
  let x : ℚ := (r : ℚ) / 1000
  let x1 : ℚ := if x < 1 / 100 then 0 else x
  if x1 = (SNODAS_NODATA : ℚ) / 1000 then SnoVal.nan else SnoVal.val x1

/-! ## Variable identification (`run_snodas_build.py` lines 41-48, 128-153) -/

/-- The variable-code table `VAR_NAMES`, in source order. -/
def VAR_NAMES : List (List Char × String) :=
  [("1036".toList, "snow_depth"),
   ("1034".toList, "swe"),
   ("1038".toList, "snow_accumulation"),
   ("1039".toList, "snow_melt"),
   ("1033".toList, "snow_cover"),
   ("1037".toList, "snow_depth_change")]

/-- `code in VAR_NAMES` (dict key membership). -/
def varNamesHas (c : List Char) : Bool :=
  (VAR_NAMES.lookup c).isSome

/-- `re.findall(r'(\d{4})', name)`: the non-overlapping four-digit runs
found scanning left to right. -/
def scanCodes : List Char → List (List Char)
  | a :: b :: c :: d :: rest =>
    if a.isDigit && b.isDigit && c.isDigit && d.isDigit then
      [a, b, c, d] :: scanCodes rest
    else
      scanCodes (b :: c :: d :: rest)
  | _ => []

/-- `pat in s` for strings: `pat` occurs as a contiguous run of `s`. -/
def containsSub : List Char → List Char → Bool
  | pat, [] => pat.isEmpty
  | pat, c :: rest => pat.isPrefixOf (c :: rest) || containsSub pat rest

/-- The `for code in codes: if code in VAR_NAMES: var_code = code; break`
loop (lines 132-135). -/
def firstTableCode : List (List Char) → Option (List Char)
  | [] => none
  | c :: rest => if varNamesHas c then some c else firstTableCode rest

/-- The hard-coded `elif '....' in member.name` fallback chain, in source
order (lines 137-151). -/
def fallbackCode (n : List Char) : Option (List Char) :=
  if containsSub "1036".toList n then some "1036".toList
  else if containsSub "1034".toList n then some "1034".toList
  else if containsSub "1038".toList n then some "1038".toList
  else if containsSub "1039".toList n then some "1039".toList
  else if containsSub "1033".toList n then some "1033".toList
  else if containsSub "1037".toList n then some "1037".toList
  else none

/-- The resolved variable code of a member name: table lookup over the
extracted codes first, the substring fallback only when that finds
nothing, `none` when the member is to be skipped. -/
def selectVarCode (n : List Char) : Option (List Char) :=
  match firstTableCode (scanCodes n) with
  | some c => some c
  | none => fallbackCode n

/-- `VAR_NAMES.get(var_code, f'var_{var_code}')` (line 153). -/
def varNameOf (c : List Char) : String :=
  match VAR_NAMES.lookup c with
  | some s => s
  | none => "var_" ++ String.mk c

/-! ## Grid geometry registry (`run_snodas_build.py` lines 50-69) -/

/-- One entry of `GRID_CONFIGS`. -/
structure GridConfig where
  XMIN : ℚ
  YMAX : ℚ
  XMAX : ℚ
  YMIN : ℚ
  NCOLS : ℕ
  NROWS : ℕ
  label : String
deriving DecidableEq, Repr

/-- The pre-Oct-2013 geometry (`GRID_CONFIGS['old']`). -/
def oldConfig : GridConfig :=
  { XMIN := -124.73375000000000
    YMAX := 52.87458333333333
    XMAX := -66.94208333333333
    YMIN := 24.94958333333333
    NCOLS := 6935
    NROWS := 3351
    label := "Pre-Oct-2013" }

/-- The post-Oct-2013 geometry (`GRID_CONFIGS['new']`). -/
def newConfig : GridConfig :=
  { XMIN := -124.73333333333333
    YMAX := 52.87500000000000
    XMAX := -66.94166666666667
    YMIN := 24.95000000000000
    NCOLS := 3353
    NROWS := 3353
    label := "Post-Oct-2013" }

/-- `GRID_CONFIGS.values()` in insertion order. -/
def GRID_CONFIGS : List GridConfig := [oldConfig, newConfig]

/-- Geometry detection (lines 161-164): the first registry entry whose
`NCOLS * NROWS` equals the element count. -/
def detectConfig (numValues : ℕ) : Option GridConfig :=
  GRID_CONFIGS.find? fun cfg => numValues == cfg.NCOLS * cfg.NROWS

/-- `np.linspace a b n`: `n` evenly spaced points from `a` to `b`
inclusive. -/
def linspace (a b : ℚ) (n : ℕ) : List ℚ :=
  (List.range n).map fun i => a + (b - a) * i / (n - 1)

/-- The longitude axis of a geometry, cell-center convention
(lines 177-180). -/
def lonAxis (cfg : GridConfig) : List ℚ :=
  let cx : ℚ := (cfg.XMAX - cfg.XMIN) / cfg.NCOLS
  linspace (cfg.XMIN + cx / 2) (cfg.XMAX - cx / 2) cfg.NCOLS

/-- The latitude axis of a geometry, descending (lines 178-181). -/
def latAxis (cfg : GridConfig) : List ℚ :=
  let cy : ℚ := (cfg.YMAX - cfg.YMIN) / cfg.NROWS
  linspace (cfg.YMAX - cy / 2) (cfg.YMIN + cy / 2) cfg.NROWS

/-! ## Spatial subsetting (`run_snodas_build.py` lines 34-39, 72-90) -/

/-- A geographic bounding box. -/
structure Bounds where
  lat_min : ℚ
  lat_max : ℚ
  lon_min : ℚ
  lon_max : ℚ
deriving DecidableEq, Repr

/-- The fixed Colorado box `CO_BOUNDS`. -/
def CO_BOUNDS : Bounds :=
  { lat_min := 37.0, lat_max := 41.0, lon_min := -109.0, lon_max := -104.0 }

/-- The latitude mask of `subset_to_colorado`, for one coordinate. -/
def latKeep (b : Bounds) (q : ℚ) : Bool :=
  decide (b.lat_min ≤ q) && decide (q ≤ b.lat_max)

/-- The longitude mask of `subset_to_colorado`, for one coordinate. -/
def lonKeep (b : Bounds) (q : ℚ) : Bool :=
  decide (b.lon_min ≤ q) && decide (q ≤ b.lon_max)

/-- Crop one row to the longitude entries the mask keeps
(the column selection of `data_array[np.ix_(lat_indices, lon_indices)]`). -/
def subsetRow (b : Bounds) (lon : List ℚ) (row : List α) : List α :=
  ((lon.zip row).filter fun p => lonKeep b p.1).map Prod.snd

/-- `subset_to_colorado` generalized over the box: keep the axis entries
inside the box, and the grid rows/columns at the kept positions. -/
def subsetByBounds (b : Bounds) (lat lon : List ℚ) (grid : List (List α)) :
    List ℚ × List ℚ × List (List α) :=
  (lat.filter (latKeep b),
   lon.filter (lonKeep b),
   ((lat.zip grid).filter fun p => latKeep b p.1).map fun p => subsetRow b lon p.2)

/-- `subset_to_colorado` itself: `subsetByBounds` at the fixed `CO_BOUNDS`. -/
def subset_to_colorado (lat lon : List ℚ) (grid : List (List α)) :
    List ℚ × List ℚ × List (List α) :=
  subsetByBounds CO_BOUNDS lat lon grid

/-! ## The container-processing loop of `get_snodas_grid` (lines 122-219)

The tar container is modelled as the list of its members, each a name
plus the decompressed bytes of its payload; fetching, caching and the
gzip/tar plumbing are I/O outside the embedding.  Any exception inside
the loop (in particular a `struct.unpack` size mismatch) is caught by
the function's outer handler and becomes the failure result `none`. -/

/-- A container member: its name and its decompressed payload bytes. -/
structure Member where
  mname : List Char
  payload : List ℕ
deriving DecidableEq, Repr

/-- `member.name.endswith('.dat.gz')`. -/
def isDatGz (n : List Char) : Bool :=
  ".dat.gz".toList.isSuffixOf n

/-- A decoded 2-D grid, row-major. -/
abbrev Grid := List (List SnoVal)

/-- `reshape (NROWS, NCOLS)` of a flat value list. -/
def reshape (nrows ncols : ℕ) (vals : List Int) : List (List Int) :=
  (List.range nrows).map fun i => (List.range ncols).map fun j => vals.getD (i * ncols + j) 0

/-- Python dict assignment `d[k] = v` on an association list. -/
def updateAssoc : List (String × Grid) → String → Grid → List (String × Grid)
  | [], k, v => [(k, v)]
  | (k', v') :: rest, k, v =>
    if k' = k then (k, v) :: rest else (k', v') :: updateAssoc rest k v

/-- The loop state of `get_snodas_grid`: the accumulated variable dict,
the detected geometry, and the coordinate info captured at the first
processed member. -/
structure GridInfo where
  lat : List ℚ
  lon : List ℚ
  config : GridConfig
  subset_co : Bool
deriving DecidableEq, Repr

/-- Mutable locals of the member loop. -/
structure LoopState where
  variables_dict : List (String × Grid)
  grid_config : Option GridConfig
  grid_info : Option GridInfo
deriving DecidableEq, Repr

/-- Process one recognized member once the geometry `cfg` is fixed:
unpack, reshape, convert elementwise, optionally subset, record the
grid under its variable name and capture `grid_info` if still unset.
`none` models the `struct.unpack` exception on a size mismatch. -/
def processPayload (subset_co : Bool) (cfg : GridConfig) (varName : String)
    (data : List ℕ) (st : LoopState) : Option LoopState :=
  match unpackExact (cfg.NCOLS * cfg.NROWS) data with
  | none => none
  | some vals =>
    let grid : Grid := (reshape cfg.NROWS cfg.NCOLS vals).map fun row => row.map decodeCell
    let lat := latAxis cfg
    let lon := lonAxis cfg
    if subset_co then
      let s := subsetByBounds CO_BOUNDS lat lon grid
      let info := st.grid_info.getD ⟨s.1, s.2.1, cfg, true⟩
      some ⟨updateAssoc st.variables_dict varName s.2.2, some cfg, some info⟩
    else
      let info := st.grid_info.getD ⟨lat, lon, cfg, false⟩
      some ⟨updateAssoc st.variables_dict varName grid, some cfg, some info⟩

/-- The member loop (lines 127-212).  A member that is not a data file,
or whose variable cannot be identified, is skipped; an undetectable
geometry on the first decodable member fails the whole container; the
geometry is detected at most once and reused afterwards. -/
def processMembers (subset_co : Bool) : List Member → LoopState → Option LoopState
  | [], st => some st
  | m :: rest, st =>
    if isDatGz m.mname then
      match selectVarCode m.mname with
      | none => processMembers subset_co rest st
      | some code =>
        match st.grid_config with
        | some cfg =>
          match processPayload subset_co cfg (varNameOf code) m.payload st with
          | none => none
          | some st' => processMembers subset_co rest st'
        | none =>
          match detectConfig (m.payload.length / 2) with
          | none => none
          | some cfg =>
            match processPayload subset_co cfg (varNameOf code) m.payload st with
            | none => none
            | some st' => processMembers subset_co rest st'
    else
      processMembers subset_co rest st

/-- `get_snodas_grid`, restricted to its decoding core: run the member
loop on the container and fail when no variable was recognized. -/
def get_snodas_grid (members : List Member) (subset_co : Bool) :
    Option (List (String × Grid) × GridInfo) :=
  match processMembers subset_co members ⟨[], none, none⟩ with
  | none => none
  | some st =>
    if st.variables_dict.isEmpty then none
    else
      match st.grid_info with
      | none => none
      | some info => some (st.variables_dict, info)

/-- The first member the loop actually decodes: the first one with the
data-file suffix and a resolvable variable code. -/
def firstDecodable (members : List Member) : Option Member :=
  members.find? fun m => isDatGz m.mname && (selectVarCode m.mname).isSome

/-! ## The per-year build of `build_year_dataset` (lines 227-387)

Dates are modelled as natural numbers (day ordinals); the per-date fetch
and decode is abstracted as a function from a date to an optional
variable dict (`get_snodas_grid` returning `none` on any failure), and
one grid is a value of an arbitrary type `G`. -/

/-- Lines 263-267: the requested dates absent from the existing
archive's time axis, in request order. -/
def datesToProcess (allDates existing : List ℕ) : List ℕ :=
  allDates.filter fun d => !(existing.contains d)

/-- The accumulators of the per-date loop (lines 277-280). -/
structure BuildAcc (G : Type) where
  all_variables : List (String × List G)
  dates : List ℕ
  failed_dates : List ℕ
deriving DecidableEq, Repr

/-- `all_variables[var_name].append(grid)`, creating the entry on first
sight (lines 291-294). -/
def appendGrid : List (String × List G) → String → G → List (String × List G)
  | [], v, g => [(v, [g])]
  | (k, gs) :: rest, v, g =>
    if k = v then (k, gs ++ [g]) :: rest else (k, gs) :: appendGrid rest v g

/-- Record one date's variable dict into the accumulators. -/
def addVars (avs : List (String × List G)) (varDict : List (String × G)) :
    List (String × List G) :=
  varDict.foldl (fun a p => appendGrid a p.1 p.2) avs

/-- The per-date loop (lines 282-299): a successful date appends its
grids and its date, a failed date goes to `failed_dates`; the loop never
aborts. -/
def processDates (f : ℕ → Option (List (String × G))) :
    List ℕ → BuildAcc G → BuildAcc G
  | [], acc => acc
  | d :: rest, acc =>
    match f d with
    | some varDict =>
      processDates f rest
        ⟨addVars acc.all_variables varDict, acc.dates ++ [d], acc.failed_dates⟩
    | none =>
      processDates f rest ⟨acc.all_variables, acc.dates, acc.failed_dates ++ [d]⟩

/-- Lines 317-326: the variables kept in `data_vars` — exactly those
with one grid per successfully processed date. -/
def dataVarsOf (avs : List (String × List G)) (expected : ℕ) :
    List (String × List G) :=
  avs.filter fun p => p.2.length == expected

/-- Lines 317-326: the variables reported in `skipped_vars`. -/
def skippedOf (avs : List (String × List G)) (expected : ℕ) :
    List (String × List G) :=
  avs.filter fun p => !(p.2.length == expected)

/-- Lines 354-360: the time axis after `xr.concat` with the existing
archive and `sortby('time')`. -/
def mergedTimeAxis (existing newDates : List ℕ) : List ℕ :=
  (existing ++ newDates).mergeSort

/-! ## The year loop of `main` (lines 390-436) -/

/-- `range(START_YEAR, end_year + 1)`. -/
def yearRange (startYear endYear : ℕ) : List ℕ :=
  (List.range (endYear + 1 - startYear)).map (startYear + ·)

/-- The outcome of one year's build: `.ok` carries the boolean success
flag, `.error` a raised exception's message. -/
abbrev YearResult := Except String Bool

/-- Lines 418-436: the per-year loop; an exception raised by one year's
build is caught, the year recorded as failed, and the loop continues.
Returns `(successful_years, failed_years)`. -/
def runYears (build : ℕ → YearResult) : List ℕ → List ℕ × List ℕ
  | [] => ([], [])
  | y :: rest =>
    let r := runYears build rest
    match build y with
    | .ok true => (y :: r.1, r.2)
    | .ok false => (r.1, y :: r.2)
    | .error _ => (r.1, y :: r.2)

/-- A year's build succeeded (`.ok true`). -/
def yearOk (r : YearResult) : Bool :=
  match r with
  | .ok true => true
  | _ => false

/-- Lines 396-418 of `main`: the range check `START_YEAR > END_YEAR`
raises *before* the year loop, so a misconfigured range aborts the whole
batch; otherwise the end year is clamped to the current year and the
year loop runs. -/
def mainDrive (build : ℕ → YearResult) (startYear endYear currentYear : ℕ) :
    Except String (List ℕ × List ℕ) :=
  if startYear > endYear then
    .error "start_year must be <= end_year"
  else
    .ok (runYears build (yearRange startYear (min endYear currentYear)))

/-! ## Helper lemmas about the per-cell conversion -/

/-- Closed form of `decodeCell`: the sentinel branch is dead code — every
raw value below 10 (including the sentinel -9999) has already been
snapped to zero by the preceding line, and no surviving value can equal
`-9999 / 1000`. -/
theorem decodeCell_eq (r : Int) :
    decodeCell r = if r < 10 then SnoVal.val 0 else SnoVal.val ((r : ℚ) / 1000) := by
  have h1 : ((r : ℚ) / 1000 < 1 / 100) ↔ r < 10 := by
    rw [div_lt_div_iff₀ (by norm_num) (by norm_num)]
    constructor
    · intro h
      by_contra hc
      push_neg at hc
      have : (10 : ℚ) ≤ (r : ℚ) := by exact_mod_cast hc
      linarith
    · intro h
      have : (r : ℚ) < 10 := by exact_mod_cast h
      linarith
  simp only [decodeCell, SNODAS_NODATA]
  by_cases h : r < 10
  · rw [if_pos (h1.mpr h), if_pos h, if_neg (by norm_num : ¬((0 : ℚ) = ((-9999 : ℤ) : ℚ) / 1000))]
  · have hx : ¬ ((r : ℚ) / 1000 < 1 / 100) := fun hc => h (h1.mp hc)
    have hr : (10 : ℚ) ≤ (r : ℚ) := by
      push_neg at h
      exact_mod_cast h
    have hne : ¬ ((r : ℚ) / 1000 = ((-9999 : ℤ) : ℚ) / 1000) := by
      intro hc
      have : (r : ℚ) = -9999 := by
        field_simp at hc
        exact_mod_cast hc
      linarith
    rw [if_neg hx, if_neg h, if_neg hne]

/-- Big-endian 16-bit encode/decode round-trip on the int16 range. -/
theorem unpackBE16_encodeBE16 (r : Int) (h1 : -32768 ≤ r) (h2 : r ≤ 32767) :
    unpackBE16 (encodeBE16 r) = [r] := by
  simp only [encodeBE16, unpackBE16]
  congr 1
  have hdm : (r % 2 ^ 16).toNat / 256 * 256 + (r % 2 ^ 16).toNat % 256 = (r % 2 ^ 16).toNat := by
    omega
  rw [hdm]
  unfold toSigned16
  split
  · omega
  · omega

/-- C1 (the code side of the bug): the nodata sentinel decodes to `0.0`,
and no raw value at all decodes to NaN — the sentinel branch of the
decoder runs after the snap-to-zero and can never match. -/
theorem sentinel_decodes_to_zero_never_nan :
    decodeCell SNODAS_NODATA = SnoVal.val 0 ∧ ∀ r : Int, decodeCell r ≠ SnoVal.nan := by
  constructor
  · rw [show SNODAS_NODATA = (-9999 : Int) from rfl, decodeCell_eq]
    norm_num
  · intro r
    rw [decodeCell_eq]
    split <;> simp

/-- C2 as stated is false: the physical value `v = 0.005` encodes to the
raw value 5, which the decoder snaps to `0.0`, an error of `1/200`,
larger than the claimed `1e-3` tolerance (and `5` is not the sentinel). -/
theorem roundtrip_claim_false_at_half_centimeter :
    round ((1 / 200 : ℚ) * 1000) = 5
      ∧ (unpackBE16 (encodeBE16 (round ((1 / 200 : ℚ) * 1000)))).map decodeCell
          = [SnoVal.val 0]
      ∧ ¬ (|(0 : ℚ) - 1 / 200| ≤ 1 / 1000)
      ∧ (5 : Int) ≠ SNODAS_NODATA := by
  refine ⟨by norm_num [round_eq], ?_, ?_, by decide⟩
  · rw [show round ((1 / 200 : ℚ) * 1000) = 5 by norm_num [round_eq]]
    rw [unpackBE16_encodeBE16 5 (by norm_num) (by norm_num)]
    simp [decodeCell_eq]
  · rw [zero_sub, abs_neg, abs_of_pos (by norm_num : (0 : ℚ) < 1 / 200)]
    norm_num

/-- C2 amended: for every physical value whose raw encoding
`round(v*1000)` lies in `[10, 32767]`, the big-endian 16-bit round trip
through the decoder's payload conversion returns `v` within `1e-3`;
raw values below 10 — the sentinel included — decode to exactly `0.0`
instead (see the C1 theorem for the sentinel). -/
theorem roundtrip_amended (v : ℚ) (h1 : 10 ≤ round (v * 1000))
    (h2 : round (v * 1000) ≤ 32767) :
    (unpackBE16 (encodeBE16 (round (v * 1000)))).map decodeCell
        = [SnoVal.val ((round (v * 1000) : ℚ) / 1000)]
      ∧ |((round (v * 1000) : ℚ) / 1000) - v| ≤ 1 / 1000 := by
  constructor
  · rw [unpackBE16_encodeBE16 _ (by omega) h2]
    have : ¬ (round (v * 1000) < 10) := by omega
    simp [decodeCell_eq, this]
  · have hr : |v * 1000 - (round (v * 1000) : ℚ)| ≤ 1 / 2 := abs_sub_round (v * 1000)
    have heq : ((round (v * 1000) : ℚ) / 1000 - v)
        = -(v * 1000 - (round (v * 1000) : ℚ)) / 1000 := by ring
    rw [heq, abs_div, abs_neg]
    rw [abs_of_pos (by norm_num : (0 : ℚ) < 1000)]
    linarith

/-- Witness for the amended round trip, at `v = 1`. -/
theorem roundtrip_amended_witness :
    (unpackBE16 (encodeBE16 (round ((1 : ℚ) * 1000)))).map decodeCell
        = [SnoVal.val ((round ((1 : ℚ) * 1000) : ℚ) / 1000)]
      ∧ |((round ((1 : ℚ) * 1000) : ℚ) / 1000) - 1| ≤ 1 / 1000 :=
  roundtrip_amended 1 (by norm_num [round_eq]) (by norm_num [round_eq])

/-! ## The value range of decoded grids (C10) -/

/-- The range every decoded cell lands in: exactly zero, or a finite
value of at least 0.01. -/
def cellOK (x : SnoVal) : Prop :=
  x = SnoVal.val 0 ∨ ∃ q : ℚ, x = SnoVal.val q ∧ 1 / 100 ≤ q

/-- Every row of every grid satisfies `cellOK` pointwise. -/
def gridOK (g : Grid) : Prop :=
  ∀ row ∈ g, ∀ x ∈ row, cellOK x

/-- Every grid of a variable dict satisfies `gridOK`. -/
def dictOK (d : List (String × Grid)) : Prop :=
  ∀ p ∈ d, gridOK p.2

theorem cellOK_decodeCell (r : Int) : cellOK (decodeCell r) := by
  rw [decodeCell_eq]
  by_cases h : r < 10
  · left
    rw [if_pos h]
  · right
    refine ⟨(r : ℚ) / 1000, by rw [if_neg h], ?_⟩
    have hr : (10 : ℚ) ≤ (r : ℚ) := by
      push_neg at h
      exact_mod_cast h
    rw [div_le_div_iff₀ (by norm_num) (by norm_num)]
    linarith

theorem subsetRow_mem {bd : Bounds} {lon : List ℚ} {row : List α} {x : α}
    (h : x ∈ subsetRow bd lon row) : x ∈ row := by
  simp only [subsetRow, List.mem_map, List.mem_filter] at h
  obtain ⟨p, ⟨hp, _⟩, hx⟩ := h
  exact hx ▸ (List.of_mem_zip hp).2

theorem subsetByBounds_gridOK {bd : Bounds} {lat lon : List ℚ} {g : Grid}
    (h : gridOK g) : gridOK (subsetByBounds bd lat lon g).2.2 := by
  intro row hrow x hx
  simp only [subsetByBounds, List.mem_map, List.mem_filter] at hrow
  obtain ⟨p, ⟨hp, _⟩, hrow⟩ := hrow
  exact h p.2 (List.of_mem_zip hp).2 x (subsetRow_mem (hrow ▸ hx))

theorem updateAssoc_dictOK {d : List (String × Grid)} {k : String} {g : Grid}
    (hd : dictOK d) (hg : gridOK g) : dictOK (updateAssoc d k g) := by
  induction d with
  | nil =>
    intro p hp
    simp only [updateAssoc, List.mem_singleton] at hp
    exact hp ▸ hg
  | cons hd' tl ih =>
    intro p hp
    simp only [updateAssoc] at hp
    split at hp
    · rcases List.mem_cons.mp hp with h | h
      · exact h ▸ hg
      · exact hd p (List.mem_cons_of_mem _ h)
    · rcases List.mem_cons.mp hp with h | h
      · exact hd p (h ▸ List.mem_cons_self _ _)
      · exact ih (fun q hq => hd q (List.mem_cons_of_mem _ hq)) p h

/-- A payload whose byte count does not match the fixed geometry raises
in `struct.unpack` and fails the member. -/
theorem processPayload_none {b : Bool} {cfg : GridConfig} {vn : String}
    {data : List ℕ} {st : LoopState}
    (hlen : data.length ≠ 2 * (cfg.NCOLS * cfg.NROWS)) :
    processPayload b cfg vn data st = none := by
  simp [processPayload, unpackExact, hlen]

/-- A payload of the exact byte count succeeds: the produced state keeps
the geometry, stores a `gridOK` grid under the variable name, and its
`grid_info` is the old one if already set, else one carrying `cfg`. -/
theorem processPayload_some (b : Bool) (cfg : GridConfig) (vn : String)
    (data : List ℕ) (st : LoopState)
    (hlen : data.length = 2 * (cfg.NCOLS * cfg.NROWS)) :
    ∃ g info, processPayload b cfg vn data st
        = some ⟨updateAssoc st.variables_dict vn g, some cfg, some info⟩
      ∧ gridOK g
      ∧ (st.grid_info = none → info.config = cfg)
      ∧ (∀ i, st.grid_info = some i → info = i) := by
  have hnew : gridOK ((reshape cfg.NROWS cfg.NCOLS
      (unpackBE16 data)).map fun row => row.map decodeCell) := by
    intro row hrow x hx
    simp only [List.mem_map] at hrow
    obtain ⟨raw, _, hrow⟩ := hrow
    obtain ⟨r, _, hx⟩ := List.mem_map.mp (hrow ▸ hx)
    exact hx ▸ cellOK_decodeCell r
  simp only [processPayload, unpackExact]
  rw [if_pos hlen]
  by_cases hb : b = true
  · subst hb
    refine ⟨_, _, rfl, subsetByBounds_gridOK hnew, ?_, ?_⟩
    · intro hi
      rw [hi]
      rfl
    · intro i hi
      rw [hi]
      rfl
  · rw [Bool.not_eq_true] at hb
    subst hb
    refine ⟨_, _, rfl, hnew, ?_, ?_⟩
    · intro hi
      rw [hi]
      rfl
    · intro i hi
      rw [hi]
      rfl

theorem processPayload_dictOK {b : Bool} {cfg : GridConfig} {vn : String}
    {data : List ℕ} {st st' : LoopState} (hd : dictOK st.variables_dict)
    (h : processPayload b cfg vn data st = some st') : dictOK st'.variables_dict := by
  by_cases hlen : data.length = 2 * (cfg.NCOLS * cfg.NROWS)
  · obtain ⟨g, info, hc, hg, -, -⟩ := processPayload_some b cfg vn data st hlen
    rw [hc] at h
    obtain rfl := Option.some.inj h
    exact updateAssoc_dictOK hd hg
  · rw [processPayload_none hlen] at h
    cases h

/-- Once `grid_info` is captured it is never overwritten. -/
theorem processPayload_info_persist {b : Bool} {cfg : GridConfig} {vn : String}
    {data : List ℕ} {st st' : LoopState} {i : GridInfo}
    (hi : st.grid_info = some i)
    (h : processPayload b cfg vn data st = some st') : st'.grid_info = some i := by
  by_cases hlen : data.length = 2 * (cfg.NCOLS * cfg.NROWS)
  · obtain ⟨g, info, hc, -, -, hkeep⟩ := processPayload_some b cfg vn data st hlen
    rw [hc] at h
    obtain rfl := Option.some.inj h
    rw [hkeep i hi]
  · rw [processPayload_none hlen] at h
    cases h

theorem processMembers_dictOK {b : Bool} {ms : List Member} {st st' : LoopState}
    (hd : dictOK st.variables_dict)
    (h : processMembers b ms st = some st') : dictOK st'.variables_dict := by
  induction ms generalizing st with
  | nil =>
    obtain rfl := Option.some.inj h
    exact hd
  | cons m rest ih =>
    rw [processMembers] at h
    split at h
    · split at h
      · exact ih hd h
      · split at h
        · split at h
          · cases h
          · exact ih (processPayload_dictOK hd (by assumption)) h
        · split at h
          · cases h
          · split at h
            · cases h
            · exact ih (processPayload_dictOK hd (by assumption)) h
    · exact ih hd h

/-- Inversion of a successful `get_snodas_grid`. -/
theorem get_snodas_grid_eq_some {ms : List Member} {b : Bool}
    {d : List (String × Grid)} {i : GridInfo}
    (h : get_snodas_grid ms b = some (d, i)) :
    ∃ st, processMembers b ms ⟨[], none, none⟩ = some st
      ∧ st.variables_dict = d ∧ st.grid_info = some i
      ∧ st.variables_dict.isEmpty = false := by
  unfold get_snodas_grid at h
  split at h
  · cases h
  · rename_i st hst
    by_cases he : st.variables_dict.isEmpty
    · rw [if_pos he] at h
      cases h
    · rw [if_neg he] at h
      split at h
      · cases h
      · rename_i info hinfo
        obtain ⟨rfl, rfl⟩ := Prod.mk.injEq _ _ _ _ ▸ Option.some.inj h
        exact ⟨st, hst, rfl, hinfo, by simpa using he⟩

/-- C10: every decoded cell is exactly `0.0` or at least `0.01` — the
snap rewrites all negative values (the sentinel included) to zero — and
consequently every grid of every successful `get_snodas_grid` result
contains only such values: no negative value, no value strictly between
0 and 0.01, and no NaN. -/
theorem decoded_values_zero_or_above_threshold :
    (∀ r : Int, cellOK (decodeCell r))
      ∧ ∀ (ms : List Member) (b : Bool) (d : List (String × Grid)) (i : GridInfo),
          get_snodas_grid ms b = some (d, i) →
            ∀ p ∈ d, ∀ row ∈ p.2, ∀ x ∈ row, cellOK x := by
  refine ⟨cellOK_decodeCell, ?_⟩
  intro ms b d i h p hp
  obtain ⟨st, hst, hd, -, -⟩ := get_snodas_grid_eq_some h
  exact processMembers_dictOK (by intro q hq; cases hq) hst p (hd ▸ hp)

/-! ## Geometry detection through the member loop (C3) -/

theorem processMembers_info_persist {b : Bool} {ms : List Member} {st st' : LoopState}
    {i : GridInfo} (hi : st.grid_info = some i)
    (h : processMembers b ms st = some st') : st'.grid_info = some i := by
  induction ms generalizing st with
  | nil =>
    obtain rfl := Option.some.inj h
    exact hi
  | cons m rest ih =>
    rw [processMembers] at h
    split at h
    · split at h
      · exact ih hi h
      · split at h
        · split at h
          · cases h
          · exact ih (processPayload_info_persist hi (by assumption)) h
        · split at h
          · cases h
          · split at h
            · cases h
            · exact ih (processPayload_info_persist hi (by assumption)) h
    · exact ih hi h

/-- A member without the data suffix, or without a resolvable variable
code, leaves the loop state untouched. -/
theorem processMembers_skip_head {b : Bool} {m : Member} {rest : List Member}
    {st : LoopState} (h : isDatGz m.mname = false ∨ selectVarCode m.mname = none) :
    processMembers b (m :: rest) st = processMembers b rest st := by
  rcases h with h | h
  · rw [processMembers, if_neg (by simp [h])]
  · cases hd : isDatGz m.mname
    · rw [processMembers, if_neg (by simp [hd])]
    · rw [processMembers, if_pos (by simp [hd])]
      rw [h]

/-- A container with no decodable member passes through the loop with
the initial state intact. -/
theorem processMembers_no_decodable {b : Bool} {ms : List Member} {st : LoopState}
    (h : firstDecodable ms = none) : processMembers b ms st = some st := by
  induction ms with
  | nil => rfl
  | cons m rest ih =>
    rw [firstDecodable, List.find?] at h
    cases hp : (isDatGz m.mname && (selectVarCode m.mname).isSome) with
    | true => rw [hp] at h; cases h
    | false =>
      rw [hp] at h
      rw [Bool.and_eq_false_iff] at hp
      have hskip : isDatGz m.mname = false ∨ selectVarCode m.mname = none := by
        rcases hp with hp | hp
        · exact Or.inl hp
        · exact Or.inr (Option.not_isSome_iff_eq_none.mp (by simp [hp]))
      rw [processMembers_skip_head hskip]
      exact ih h

theorem detectConfig_old : detectConfig (6935 * 3351) = some oldConfig := by rfl

theorem detectConfig_new : detectConfig (3353 * 3353) = some newConfig := by rfl

theorem detectConfig_none {n : ℕ} (h1 : n ≠ 6935 * 3351) (h2 : n ≠ 3353 * 3353) :
    detectConfig n = none := by
  have b1 : (n == oldConfig.NCOLS * oldConfig.NROWS) = false := by
    simp only [oldConfig]
    exact beq_eq_false_iff_ne.mpr (by simpa using h1)
  have b2 : (n == newConfig.NCOLS * newConfig.NROWS) = false := by
    simp only [newConfig]
    exact beq_eq_false_iff_ne.mpr (by simpa using h2)
  simp [detectConfig, GRID_CONFIGS, List.find?, b1, b2]

/-- If the first decodable member's element count matches no registry
entry, the whole container fails. -/
theorem processMembers_unknown_geometry {b : Bool} {ms : List Member} {m : Member}
    {st : LoopState} (hfd : firstDecodable ms = some m) (hcfg : st.grid_config = none)
    (hdet : detectConfig (m.payload.length / 2) = none) :
    processMembers b ms st = none := by
  induction ms with
  | nil => cases hfd
  | cons m0 rest ih =>
    rw [firstDecodable, List.find?] at hfd
    cases hp : (isDatGz m0.mname && (selectVarCode m0.mname).isSome) with
    | true =>
      rw [hp] at hfd
      obtain rfl := Option.some.inj hfd
      rw [Bool.and_eq_true] at hp
      obtain ⟨code, hsel⟩ := Option.isSome_iff_exists.mp hp.2
      rw [processMembers, if_pos hp.1, hsel, hcfg, hdet]
    | false =>
      rw [hp] at hfd
      rw [Bool.and_eq_false_iff] at hp
      have hskip : isDatGz m0.mname = false ∨ selectVarCode m0.mname = none := by
        rcases hp with hp | hp
        · exact Or.inl hp
        · exact Or.inr (Option.not_isSome_iff_eq_none.mp (by simp [hp]))
      rw [processMembers_skip_head hskip]
      exact ih hfd

/-- If the first decodable member's payload matches a registry entry
exactly, any successful run of the loop carries that entry in its
captured `grid_info`. -/
theorem processMembers_detected_geometry {b : Bool} {ms : List Member} {m : Member}
    {st st' : LoopState} {cfg : GridConfig}
    (hfd : firstDecodable ms = some m) (hcfg : st.grid_config = none)
    (hinfo : st.grid_info = none)
    (hdet : detectConfig (m.payload.length / 2) = some cfg)
    (hlen : m.payload.length = 2 * (cfg.NCOLS * cfg.NROWS))
    (h : processMembers b ms st = some st') :
    ∃ i, st'.grid_info = some i ∧ i.config = cfg := by
  induction ms generalizing st with
  | nil => cases hfd
  | cons m0 rest ih =>
    rw [firstDecodable, List.find?] at hfd
    cases hp : (isDatGz m0.mname && (selectVarCode m0.mname).isSome) with
    | true =>
      rw [hp] at hfd
      obtain rfl := Option.some.inj hfd
      rw [Bool.and_eq_true] at hp
      obtain ⟨code, hsel⟩ := Option.isSome_iff_exists.mp hp.2
      rw [processMembers, if_pos hp.1] at h
      simp only [hsel, hcfg, hdet] at h
      obtain ⟨g, info, hpay, -, hfresh, -⟩ :=
        processPayload_some b cfg (varNameOf code) m0.payload st hlen
      simp only [hpay] at h
      exact ⟨info, processMembers_info_persist rfl h, hfresh hinfo⟩
    | false =>
      rw [hp] at hfd
      rw [Bool.and_eq_false_iff] at hp
      have hskip : isDatGz m0.mname = false ∨ selectVarCode m0.mname = none := by
        rcases hp with hp | hp
        · exact Or.inl hp
        · exact Or.inr (Option.not_isSome_iff_eq_none.mp (by simp [hp]))
      rw [processMembers_skip_head hskip] at h
      exact ih hfd hcfg hinfo h

/-- C3: geometry is detected once per container, from the first
decodable member's 16-bit element count; the two registry counts select
their entries, every other count fails the whole container. -/
theorem geometry_detection_first_member (ms : List Member) (b : Bool) (m : Member)
    (hfd : firstDecodable ms = some m) :
    (m.payload.length = 2 * (6935 * 3351) →
        ∀ d i, get_snodas_grid ms b = some (d, i) → i.config = oldConfig)
    ∧ (m.payload.length = 2 * (3353 * 3353) →
        ∀ d i, get_snodas_grid ms b = some (d, i) → i.config = newConfig)
    ∧ (m.payload.length / 2 ≠ 6935 * 3351 → m.payload.length / 2 ≠ 3353 * 3353 →
        get_snodas_grid ms b = none) := by
  refine ⟨?_, ?_, ?_⟩
  · intro hlen d i h
    obtain ⟨st, hst, -, hi, -⟩ := get_snodas_grid_eq_some h
    have hdet : detectConfig (m.payload.length / 2) = some oldConfig := by
      rw [show m.payload.length / 2 = 6935 * 3351 by omega]
      exact detectConfig_old
    obtain ⟨i', hi', hic⟩ := processMembers_detected_geometry hfd rfl rfl hdet
      (by rw [hlen]; rfl) hst
    rw [hi] at hi'
    rw [← Option.some.inj hi'] at hic
    exact hic
  · intro hlen d i h
    obtain ⟨st, hst, -, hi, -⟩ := get_snodas_grid_eq_some h
    have hdet : detectConfig (m.payload.length / 2) = some newConfig := by
      rw [show m.payload.length / 2 = 3353 * 3353 by omega]
      exact detectConfig_new
    obtain ⟨i', hi', hic⟩ := processMembers_detected_geometry hfd rfl rfl hdet
      (by rw [hlen]; rfl) hst
    rw [hi] at hi'
    rw [← Option.some.inj hi'] at hic
    exact hic
  · intro h1 h2
    unfold get_snodas_grid
    rw [processMembers_unknown_geometry hfd rfl (detectConfig_none h1 h2)]

/-- Witness for C3: a one-member container whose payload holds a single
16-bit element, matching neither registry count, is rejected whole. -/
theorem geometry_detection_first_member_witness :
    ((Member.mk "x1036.dat.gz".toList [0, 0]).payload.length = 2 * (6935 * 3351) →
        ∀ d i, get_snodas_grid [Member.mk "x1036.dat.gz".toList [0, 0]] false = some (d, i) →
          i.config = oldConfig)
    ∧ ((Member.mk "x1036.dat.gz".toList [0, 0]).payload.length = 2 * (3353 * 3353) →
        ∀ d i, get_snodas_grid [Member.mk "x1036.dat.gz".toList [0, 0]] false = some (d, i) →
          i.config = newConfig)
    ∧ ((Member.mk "x1036.dat.gz".toList [0, 0]).payload.length / 2 ≠ 6935 * 3351 →
        (Member.mk "x1036.dat.gz".toList [0, 0]).payload.length / 2 ≠ 3353 * 3353 →
        get_snodas_grid [Member.mk "x1036.dat.gz".toList [0, 0]] false = none) :=
  geometry_detection_first_member [Member.mk "x1036.dat.gz".toList [0, 0]] false
    (Member.mk "x1036.dat.gz".toList [0, 0]) (by decide)

/-! ## Variable identification precedence (C6) -/

/-- The fallback codes of lines 137-151, in check order. -/
def FALLBACK_CODES : List (List Char) :=
  ["1036".toList, "1034".toList, "1038".toList, "1039".toList,
   "1033".toList, "1037".toList]

theorem firstTableCode_eq_find (cs : List (List Char)) :
    firstTableCode cs = cs.find? varNamesHas := by
  induction cs with
  | nil => rfl
  | cons c rest ih =>
    cases h : varNamesHas c <;> simp [firstTableCode, List.find?, h, ih]

theorem fallbackCode_eq_find (n : List Char) :
    fallbackCode n = FALLBACK_CODES.find? fun c => containsSub c n := by
  unfold fallbackCode FALLBACK_CODES
  split_ifs with h1 h2 h3 h4 h5 h6 <;> simp_all [List.find?]

/-- C6: for a data-file member, identification takes the first extracted
4-digit code present in the table; only when no extracted code is in the
table does the fixed ordered fallback (1036, 1034, 1038, 1039, 1033,
1037) apply; a member still unresolved is skipped without failing the
container. -/
theorem variable_identification_precedence :
    (∀ cs : List (List Char), firstTableCode cs = cs.find? varNamesHas)
    ∧ (∀ n : List Char, fallbackCode n = FALLBACK_CODES.find? fun c => containsSub c n)
    ∧ (∀ (n : List Char) (c : List Char),
        (scanCodes n).find? varNamesHas = some c → selectVarCode n = some c)
    ∧ (∀ n : List Char, (scanCodes n).find? varNamesHas = none →
        selectVarCode n = FALLBACK_CODES.find? fun c => containsSub c n)
    ∧ (∀ (b : Bool) (m : Member) (rest : List Member) (st : LoopState),
        isDatGz m.mname = true → selectVarCode m.mname = none →
        processMembers b (m :: rest) st = processMembers b rest st) := by
  refine ⟨firstTableCode_eq_find, fallbackCode_eq_find, ?_, ?_, ?_⟩
  · intro n c h
    simp [selectVarCode, firstTableCode_eq_find, h]
  · intro n h
    simp [selectVarCode, firstTableCode_eq_find, h, fallbackCode_eq_find]
  · intro b m rest st _ h
    exact processMembers_skip_head (Or.inr h)

/-! ## Per-date failure isolation (C7) -/

theorem processDates_dates_eq {G : Type} (f : ℕ → Option (List (String × G)))
    (dates : List ℕ) (acc : BuildAcc G) :
    (processDates f dates acc).dates = acc.dates ++ dates.filter fun d => (f d).isSome := by
  induction dates generalizing acc with
  | nil => simp [processDates]
  | cons d rest ih =>
    cases hf : f d <;> simp [processDates, hf, ih]

theorem processDates_failed_eq {G : Type} (f : ℕ → Option (List (String × G)))
    (dates : List ℕ) (acc : BuildAcc G) :
    (processDates f dates acc).failed_dates
      = acc.failed_dates ++ dates.filter fun d => (f d).isNone := by
  induction dates generalizing acc with
  | nil => simp [processDates]
  | cons d rest ih =>
    cases hf : f d <;> simp [processDates, hf, ih]

/-- C7: per-date failures are isolated.  The date loop records exactly
the failing dates in `failed_dates` and exactly the succeeding dates in
`dates` — one bad date never aborts the loop — and the decoder returns
its failure result (rather than raising) on a container with no
recognized variable and on a container with unknown geometry. -/
theorem per_date_failures_never_abort :
    (∀ (G : Type) (f : ℕ → Option (List (String × G))) (dates : List ℕ),
        (processDates f dates ⟨[], [], []⟩).dates = dates.filter (fun d => (f d).isSome)
      ∧ (processDates f dates ⟨[], [], []⟩).failed_dates = dates.filter fun d => (f d).isNone)
    ∧ (∀ (ms : List Member) (b : Bool),
        firstDecodable ms = none → get_snodas_grid ms b = none)
    ∧ (∀ (ms : List Member) (b : Bool) (m : Member),
        firstDecodable ms = some m → detectConfig (m.payload.length / 2) = none →
        get_snodas_grid ms b = none) := by
  refine ⟨?_, ?_, ?_⟩
  · intro G f dates
    constructor
    · rw [processDates_dates_eq]
      rfl
    · rw [processDates_failed_eq]
      rfl
  · intro ms b h
    unfold get_snodas_grid
    rw [processMembers_no_decodable h]
    rfl
  · intro ms b m hfd hdet
    unfold get_snodas_grid
    rw [processMembers_unknown_geometry hfd rfl hdet]

/-! ## Incremental build and merged time axis (C4) -/

/-- C4: an incremental (non-rebuild) run processes exactly the requested
dates absent from the existing time axis, and after concatenation with
the existing archive and the sort by time, the merged time axis is
strictly increasing — in particular duplicate-free. -/
theorem incremental_merge_time_axis (allDates existing : List ℕ) {G : Type}
    (f : ℕ → Option (List (String × G)))
    (h1 : allDates.Nodup) (h2 : existing.Nodup) :
    (∀ d, d ∈ datesToProcess allDates existing ↔ d ∈ allDates ∧ d ∉ existing)
    ∧ (mergedTimeAxis existing
        ((processDates f (datesToProcess allDates existing) ⟨[], [], []⟩).dates)).Sorted
        (· < ·) := by
  constructor
  · intro d
    simp [datesToProcess, List.mem_filter, List.elem_iff]
  · have hnew : (processDates f (datesToProcess allDates existing) ⟨[], [], []⟩).dates
        = (datesToProcess allDates existing).filter fun d => (f d).isSome := by
      rw [processDates_dates_eq]
      rfl
    set new := (processDates f (datesToProcess allDates existing) ⟨[], [], []⟩).dates with hdef
    have hnodup_new : new.Nodup := by
      rw [hnew]
      exact (h1.filter _).filter _
    have hdisj : ∀ a ∈ existing, a ∉ new := by
      intro a ha hmem
      rw [hnew] at hmem
      have := (List.mem_filter.mp hmem).1
      have := (List.mem_filter.mp this).2
      simp [List.elem_iff] at this
      exact this ha
    have hnodup : (existing ++ new).Nodup :=
      List.nodup_append.mpr ⟨h2, hnodup_new, hdisj⟩
    have hsorted : (mergedTimeAxis existing new).Sorted (· ≤ ·) :=
      List.sorted_mergeSort' _
    have hnodup' : (mergedTimeAxis existing new).Nodup :=
      ((List.mergeSort_perm _ _).nodup_iff).mpr hnodup
    exact hsorted.lt_of_le hnodup'

/-- Witness for C4 at a tiny incremental build: archive [1, 2], request
[1, 2, 3, 4], one fetch failing. -/
theorem incremental_merge_time_axis_witness :
    (∀ d, d ∈ datesToProcess [1, 2, 3, 4] [1, 2] ↔ d ∈ [1, 2, 3, 4] ∧ d ∉ [1, 2])
    ∧ (mergedTimeAxis [1, 2]
        ((processDates (fun d => if d = 3 then none else some [("swe", (0 : ℕ))])
          (datesToProcess [1, 2, 3, 4] [1, 2]) ⟨[], [], []⟩).dates)).Sorted (· < ·) :=
  incremental_merge_time_axis [1, 2, 3, 4] [1, 2]
    (fun d => if d = 3 then none else some [("swe", (0 : ℕ))])
    (by decide) (by decide)

/-! ## Completeness filter over variables (C5) -/

theorem appendGrid_lookup {G : Type} (avs : List (String × List G)) (k v : String) (g : G) :
    ((appendGrid avs k g).lookup v).getD []
      = ((avs.lookup v).getD []) ++ (if v = k then [g] else []) := by
  induction avs with
  | nil =>
    by_cases h : v = k
    · simp [appendGrid, List.lookup, h]
    · simp [appendGrid, List.lookup, h, beq_false_of_ne h]
  | cons hd tl ih =>
    obtain ⟨k', gs⟩ := hd
    by_cases hk : k' = k
    · subst hk
      by_cases hv : v = k'
      · subst hv
        simp [appendGrid, List.lookup]
      · simp [appendGrid, List.lookup, hv, beq_false_of_ne hv]
    · by_cases hv : v = k'
      · subst hv
        simp [appendGrid, List.lookup, hk]

      · simp [appendGrid, List.lookup, hk, beq_false_of_ne hv, ih]

theorem lookup_some_mem {G : Type} {l : List (String × G)} {v : String} {x : G}
    (h : l.lookup v = some x) : (v, x) ∈ l := by
  induction l with
  | nil => cases h
  | cons p rest ih =>
    obtain ⟨k, g⟩ := p
    by_cases hv : v = k
    · subst hv
      simp [List.lookup] at h
      subst h
      exact List.mem_cons_self _ _
    · simp [List.lookup, beq_false_of_ne hv] at h
      exact List.mem_cons_of_mem _ (ih h)

theorem addVars_lookup {G : Type} (r : List (String × G)) (avs : List (String × List G))
    (v : String) (hk : (r.map Prod.fst).Nodup) :
    ((addVars avs r).lookup v).getD []
      = ((avs.lookup v).getD []) ++ (r.lookup v).toList := by
  induction r generalizing avs with
  | nil => simp [addVars, List.lookup]
  | cons p rest ih =>
    obtain ⟨k, g⟩ := p
    have hk' : (rest.map Prod.fst).Nodup := (List.nodup_cons.mp hk).2
    have hnk : k ∉ rest.map Prod.fst := (List.nodup_cons.mp hk).1
    have step : addVars avs ((k, g) :: rest) = addVars (appendGrid avs k g) rest := rfl
    rw [step, ih _ hk', appendGrid_lookup]
    by_cases hv : v = k
    · subst hv
      have hnone : rest.lookup v = none := by
        cases hl : rest.lookup v with
        | none => rfl
        | some x =>
          exact absurd (List.mem_map_of_mem Prod.fst (lookup_some_mem hl)) hnk
      simp [hnone, List.lookup]
    · simp [List.lookup, beq_false_of_ne hv, hv]

theorem processDates_lookup {G : Type} (f : ℕ → Option (List (String × G)))
    (dates : List ℕ) (acc : BuildAcc G) (v : String)
    (hk : ∀ d r, f d = some r → (r.map Prod.fst).Nodup) :
    (((processDates f dates acc).all_variables).lookup v).getD []
      = ((acc.all_variables.lookup v).getD [])
        ++ dates.filterMap fun d => (f d).bind fun r => r.lookup v := by
  induction dates generalizing acc with
  | nil => simp [processDates]
  | cons d rest ih =>
    cases hf : f d with
    | none => simp [processDates, hf, ih _]
    | some r =>
      have hadd := addVars_lookup r acc.all_variables v (hk d r hf)
      have hstep : processDates f (d :: rest) acc
          = processDates f rest ⟨addVars acc.all_variables r, acc.dates ++ [d], acc.failed_dates⟩ := by
        simp [processDates, hf]
      rw [hstep, ih, List.filterMap_cons]
      rw [show ((f d).bind fun r => r.lookup v) = r.lookup v by rw [hf]; rfl]
      cases hl : r.lookup v with
      | none => simp [hadd, hl]
      | some g => simp [hadd, hl, List.append_assoc]

theorem length_filterMap_eq_length_filter {α β : Type} (g : α → Option β) (l : List α) :
    (l.filterMap g).length = (l.filter fun a => (g a).isSome).length := by
  induction l with
  | nil => rfl
  | cons a rest ih =>
    cases hg : g a <;> simp [List.filterMap_cons, hg, ih]

/-- C5: a variable's accumulated grid count equals the number of
successfully processed dates whose dict carries that variable, and the
final filter retains an entry exactly when its count equals the number
of processed dates — every other entry lands in `skipped_vars`. -/
theorem completeness_filter {G : Type} (f : ℕ → Option (List (String × G)))
    (dates : List ℕ) (hk : ∀ d r, f d = some r → (r.map Prod.fst).Nodup) :
    (∀ v, ((((processDates f dates ⟨[], [], []⟩).all_variables).lookup v).getD []).length
        = ((processDates f dates ⟨[], [], []⟩).dates.filter
            (fun d => ((f d).bind fun r => r.lookup v).isSome)).length)
    ∧ (∀ (avs : List (String × List G)) (n : ℕ) (p : String × List G),
        p ∈ dataVarsOf avs n ↔ p ∈ avs ∧ p.2.length = n)
    ∧ (∀ (avs : List (String × List G)) (n : ℕ) (p : String × List G),
        p ∈ skippedOf avs n ↔ p ∈ avs ∧ p.2.length ≠ n) := by
  refine ⟨?_, ?_, ?_⟩
  · intro v
    rw [processDates_lookup f dates _ v hk]
    have hd : (processDates f dates (⟨[], [], []⟩ : BuildAcc G)).dates
        = dates.filter fun d => (f d).isSome := by
      rw [processDates_dates_eq]
      rfl
    rw [hd, List.filter_filter]
    have hpt : ∀ d, (((f d).bind fun r => r.lookup v).isSome && (f d).isSome)
        = ((f d).bind fun r => r.lookup v).isSome := by
      intro d
      cases hf : f d <;> simp [hf]
    rw [List.filter_congr fun d _ => hpt d]
    simp only [List.lookup, Option.getD_none, List.nil_append]
    exact length_filterMap_eq_length_filter _ _
  · intro avs n p
    simp [dataVarsOf, List.mem_filter]
  · intro avs n p
    simp [skippedOf, List.mem_filter]

/-- Witness for C5 at a concrete three-date run. -/
theorem completeness_filter_witness :
    (∀ v, ((((processDates (fun d => if d = 2 then none else some [("swe", d)])
            [1, 2, 3] ⟨[], [], []⟩).all_variables).lookup v).getD []).length
        = ((processDates (fun d => if d = 2 then none else some [("swe", d)])
            [1, 2, 3] ⟨[], [], []⟩).dates.filter
            (fun d => (((fun d => if d = 2 then none else some [("swe", d)]) d).bind
              fun r => r.lookup v).isSome)).length)
    ∧ (∀ (avs : List (String × List ℕ)) (n : ℕ) (p : String × List ℕ),
        p ∈ dataVarsOf avs n ↔ p ∈ avs ∧ p.2.length = n)
    ∧ (∀ (avs : List (String × List ℕ)) (n : ℕ) (p : String × List ℕ),
        p ∈ skippedOf avs n ↔ p ∈ avs ∧ p.2.length ≠ n) :=
  completeness_filter (fun d => if d = 2 then none else some [("swe", d)]) [1, 2, 3]
    (by
      intro d r h
      by_cases hd : d = 2
      · subst hd
        simp at h
      · simp only [if_neg hd] at h
        obtain rfl := Option.some.inj h
        simp)

/-! ## Spatial subsetting is pure cropping (C9) -/

/-- The (latitude, longitude, value) triples of a grid laid over its
axes. -/
def gridTriples (lat lon : List ℚ) (grid : List (List α)) : List (ℚ × ℚ × α) :=
  (lat.zip grid).flatMap fun p => (lon.zip p.2).map fun q => (p.1, q.1, q.2)

theorem flatMap_congr_mem {l : List α} {f g : α → List β}
    (h : ∀ a ∈ l, f a = g a) : l.flatMap f = l.flatMap g := by
  induction l with
  | nil => rfl
  | cons a rest ih =>
    simp only [List.flatMap_cons]
    rw [h a (List.mem_cons_self _ _), ih fun a ha => h a (List.mem_cons_of_mem _ ha)]

theorem filter_flatMap (l : List α) (f : α → List β) (p : β → Bool) :
    (l.flatMap f).filter p = l.flatMap fun a => (f a).filter p := by
  induction l with
  | nil => rfl
  | cons a rest ih => simp [List.flatMap_cons, List.filter_append, ih]

theorem flatMap_filter (l : List α) (k : α → Bool) (f : α → List β) :
    (l.filter k).flatMap f = l.flatMap fun a => if k a then f a else [] := by
  induction l with
  | nil => rfl
  | cons a rest ih =>
    cases h : k a <;> simp [List.filter_cons, h, List.flatMap_cons, ih]

theorem zip_filter_map {l : List α} {g : List β} (k : α → Bool) (f : α × β → γ)
    (h : l.length = g.length) :
    (l.filter k).zip (((l.zip g).filter fun p => k p.1).map f)
      = ((l.zip g).filter fun p => k p.1).map fun p => (p.1, f p) := by
  induction l generalizing g with
  | nil => simp
  | cons a l' ih =>
    cases g with
    | nil => cases h
    | cons b g' =>
      have h' : l'.length = g'.length := by simpa using h
      cases hk : k a <;> simp [List.filter_cons, hk, ih h']

theorem zip_subsetRow {bd : Bounds} {lon : List ℚ} {row : List α}
    (h : row.length = lon.length) :
    (lon.filter (lonKeep bd)).zip (subsetRow bd lon row)
      = (lon.zip row).filter fun q => lonKeep bd q.1 := by
  have := zip_filter_map (g := row) (lonKeep bd) Prod.snd h.symm
  simpa [subsetRow] using this

/-- C9: subsetting keeps exactly the axis entries inside the box, keeps
the grid values at every retained (latitude, longitude) pair unchanged
(the subset's triples are exactly the in-box triples of the full
decode), and a box spanning the whole latitude range leaves the latitude
axis untouched.  `subset_to_colorado` is this statement at the fixed
Colorado box. -/
theorem subsetting_is_pure_cropping (bd : Bounds) (lat lon : List ℚ) (grid : Grid)
    (hl : lat.length = grid.length)
    (hr : ∀ row ∈ grid, row.length = lon.length) :
    (∀ q, q ∈ (subsetByBounds bd lat lon grid).1
        ↔ q ∈ lat ∧ bd.lat_min ≤ q ∧ q ≤ bd.lat_max)
    ∧ (∀ q, q ∈ (subsetByBounds bd lat lon grid).2.1
        ↔ q ∈ lon ∧ bd.lon_min ≤ q ∧ q ≤ bd.lon_max)
    ∧ gridTriples (subsetByBounds bd lat lon grid).1 (subsetByBounds bd lat lon grid).2.1
        (subsetByBounds bd lat lon grid).2.2
      = (gridTriples lat lon grid).filter fun t => latKeep bd t.1 && lonKeep bd t.2.1
    ∧ ((∀ q ∈ lat, bd.lat_min ≤ q ∧ q ≤ bd.lat_max)
        → (subsetByBounds bd lat lon grid).1 = lat)
    ∧ subset_to_colorado lat lon grid = subsetByBounds CO_BOUNDS lat lon grid := by
  refine ⟨?_, ?_, ?_, ?_, rfl⟩
  · intro q
    simp [subsetByBounds, List.mem_filter, latKeep]
  · intro q
    simp [subsetByBounds, List.mem_filter, lonKeep]
  · show gridTriples (lat.filter (latKeep bd)) (lon.filter (lonKeep bd))
        (((lat.zip grid).filter fun p => latKeep bd p.1).map fun p => subsetRow bd lon p.2)
      = (gridTriples lat lon grid).filter fun t => latKeep bd t.1 && lonKeep bd t.2.1
    unfold gridTriples
    rw [zip_filter_map (latKeep bd) (fun p => subsetRow bd lon p.2) hl]
    rw [List.flatMap_map, filter_flatMap, flatMap_filter]
    apply flatMap_congr_mem
    intro p hp
    have hrow : p.2.length = lon.length := hr p.2 (List.of_mem_zip hp).2
    by_cases hk : latKeep bd p.1 = true
    · rw [if_pos hk]
      show ((lon.filter (lonKeep bd)).zip (subsetRow bd lon p.2)).map
          (fun q => (p.1, q.1, q.2)) = _
      rw [zip_subsetRow hrow, List.filter_map]
      congr 1
      apply List.filter_congr
      intro q _
      simp [Function.comp, hk]
    · have hk' : latKeep bd p.1 = false := by simpa using hk
      rw [if_neg hk, List.filter_map]
      symm
      have hz : List.filter
          ((fun t : ℚ × ℚ × SnoVal => latKeep bd t.1 && lonKeep bd t.2.1)
            ∘ fun q : ℚ × SnoVal => (p.1, q.1, q.2)) (lon.zip p.2)
          = List.filter (fun _ => false) (lon.zip p.2) :=
        List.filter_congr fun q hq => by simp [Function.comp, hk']
      rw [hz, List.filter_false, List.map_nil]
  · intro hall
    exact List.filter_eq_self.mpr fun q hq => by
      simp [latKeep, (hall q hq).1, (hall q hq).2]

/-- Witness for C9 on a 2x2 grid straddling the Colorado box. -/
theorem subsetting_is_pure_cropping_witness :
    (∀ q, q ∈ (subsetByBounds CO_BOUNDS [40, 36] [-108, -100]
          [[SnoVal.val 1, SnoVal.val 2], [SnoVal.val 3, SnoVal.val 4]]).1
        ↔ q ∈ [(40 : ℚ), 36] ∧ CO_BOUNDS.lat_min ≤ q ∧ q ≤ CO_BOUNDS.lat_max)
    ∧ (∀ q, q ∈ (subsetByBounds CO_BOUNDS [40, 36] [-108, -100]
          [[SnoVal.val 1, SnoVal.val 2], [SnoVal.val 3, SnoVal.val 4]]).2.1
        ↔ q ∈ [(-108 : ℚ), -100] ∧ CO_BOUNDS.lon_min ≤ q ∧ q ≤ CO_BOUNDS.lon_max)
    ∧ gridTriples (subsetByBounds CO_BOUNDS [40, 36] [-108, -100]
          [[SnoVal.val 1, SnoVal.val 2], [SnoVal.val 3, SnoVal.val 4]]).1
        (subsetByBounds CO_BOUNDS [40, 36] [-108, -100]
          [[SnoVal.val 1, SnoVal.val 2], [SnoVal.val 3, SnoVal.val 4]]).2.1
        (subsetByBounds CO_BOUNDS [40, 36] [-108, -100]
          [[SnoVal.val 1, SnoVal.val 2], [SnoVal.val 3, SnoVal.val 4]]).2.2
      = (gridTriples [40, 36] [-108, -100]
          [[SnoVal.val 1, SnoVal.val 2], [SnoVal.val 3, SnoVal.val 4]]).filter
          (fun t => latKeep CO_BOUNDS t.1 && lonKeep CO_BOUNDS t.2.1)
    ∧ ((∀ q ∈ [(40 : ℚ), 36], CO_BOUNDS.lat_min ≤ q ∧ q ≤ CO_BOUNDS.lat_max)
        → (subsetByBounds CO_BOUNDS [40, 36] [-108, -100]
            [[SnoVal.val 1, SnoVal.val 2], [SnoVal.val 3, SnoVal.val 4]]).1 = [40, 36])
    ∧ subset_to_colorado [40, 36] [-108, -100]
          [[SnoVal.val 1, SnoVal.val 2], [SnoVal.val 3, SnoVal.val 4]]
        = subsetByBounds CO_BOUNDS [40, 36] [-108, -100]
          [[SnoVal.val 1, SnoVal.val 2], [SnoVal.val 3, SnoVal.val 4]] :=
  subsetting_is_pure_cropping CO_BOUNDS [40, 36] [-108, -100]
    [[SnoVal.val 1, SnoVal.val 2], [SnoVal.val 3, SnoVal.val 4]]
    (by decide) (by decide)

/-! ## The range check aborts the batch, per-year errors do not (C8) -/

/-- C8 as stated is false: with the configured start year 2025 after the
end year 2020, `main` raises before the year loop ever runs — the whole
batch aborts, no year is recorded as failed, even though every year's
build (here one that always succeeds) would have returned success. -/
theorem range_misconfiguration_aborts_whole_batch :
    mainDrive (fun _ => Except.ok true) 2025 2020 2025
      = Except.error "start_year must be <= end_year"
    ∧ (mainDrive (fun _ => Except.ok true) 2025 2020 2025).isOk = false := by
  exact ⟨rfl, rfl⟩

/-- C8 amended: the range check runs before the year loop and aborts
the whole batch; it is exceptions raised inside a single year's build
that the driver catches, records as a failed year, and survives —
successful and failed years are exactly partitioned, whatever any year
raises. -/
theorem range_check_global_year_errors_local :
    (∀ (build : ℕ → YearResult) (s e c : ℕ), e < s →
        mainDrive build s e c = Except.error "start_year must be <= end_year")
    ∧ (∀ (build : ℕ → YearResult) (s e c : ℕ), s ≤ e →
        mainDrive build s e c = Except.ok (runYears build (yearRange s (min e c))))
    ∧ (∀ (build : ℕ → YearResult) (years : List ℕ),
        (runYears build years).1 = years.filter (fun y => yearOk (build y))
      ∧ (runYears build years).2 = years.filter fun y => !(yearOk (build y))) := by
  refine ⟨?_, ?_, ?_⟩
  · intro build s e c h
    rw [mainDrive, if_pos (by omega)]
  · intro build s e c h
    rw [mainDrive, if_neg (by omega)]
  · intro build years
    induction years with
    | nil => exact ⟨rfl, rfl⟩
    | cons y rest ih =>
      constructor
      · show (match build y with
          | .ok true => (y :: (runYears build rest).1, (runYears build rest).2)
          | .ok false => ((runYears build rest).1, y :: (runYears build rest).2)
          | .error _ => ((runYears build rest).1, y :: (runYears build rest).2)).1
          = List.filter (fun y => yearOk (build y)) (y :: rest)
        rcases hb : build y with msg | b
        · simp [List.filter_cons, yearOk, hb, ih.1]
        · cases b <;> simp [List.filter_cons, yearOk, hb, ih.1]
      · show (match build y with
          | .ok true => (y :: (runYears build rest).1, (runYears build rest).2)
          | .ok false => ((runYears build rest).1, y :: (runYears build rest).2)
          | .error _ => ((runYears build rest).1, y :: (runYears build rest).2)).2
          = List.filter (fun y => !(yearOk (build y))) (y :: rest)
        rcases hb : build y with msg | b
        · simp [List.filter_cons, yearOk, hb, ih.2]
        · cases b <;> simp [List.filter_cons, yearOk, hb, ih.2]

end Snodas
